import Mathlib

/-!
Shallow embedding of `lynxes/core/global_interpretation/feature_importance.py`.

The repository contains a single analysis routine: permutation-based global
feature importance.  We embed the tabular data abstraction, the model
abstraction and the importance pipeline over exact rationals.  The square
root used by the external `np.std` routine is irrational in general, so it
is passed as an explicit parameter `sqrtFn : ℚ → ℚ`; theorems that depend
on properties of the square root (it is nonnegative on nonnegative inputs
and vanishes at zero) take those properties as hypotheses.

Mutation of the working copy of the dataset inside the per-feature loop is
embedded as explicit state passing (`LoopState`), and the sequence of
datasets handed to the model's predict call inside the loop is recorded as
a trace, which lets loop invariants about the predict calls be stated
directly.
-/

namespace Lynxes

/-- A column of numeric values (one value per row). -/
abbrev Col := List ℚ

/-- Modelled from the spec: the tabular dataset abstraction ("a tabular
dataset abstraction exposing column access, column sampling, and row
indexing").  A `DataManager` is an ordered association of feature
identifiers to columns; `lynxes.data.DataManager` itself is not under
`src/`.  Value semantics: constructing a `DataManager` from existing data
yields an independent in-memory copy (the spec: "a single in-memory
dataset copy"). -/
structure DataManager where
  cols : List (String × Col)
deriving DecidableEq

/-- The ordered list of feature identifiers (`self.data_set.feature_ids`). -/
def DataManager.feature_ids (d : DataManager) : List String :=
  d.cols.map Prod.fst

/-- Column access `d[f]`: the values of the first column named `f`
(empty when absent). -/
def DataManager.getCol (d : DataManager) (f : String) : Col :=
  ((d.cols.find? fun p => decide (p.1 = f)).map Prod.snd).getD []

/-- Column assignment `d[f] = v`: replace the values of every column named
`f` by `v` (column names are unique in practice; see `Nodup` hypotheses). -/
def DataManager.setCol (d : DataManager) (f : String) (v : Col) : DataManager :=
  ⟨d.cols.map fun p => if p.1 = f then (f, v) else p⟩

/-- Modelled from the spec: the model-prediction abstraction ("a model
object exposing a predict method and a list of output names";
`lynxes.model.model` is not under `src/`).  Predictions are kept
column-major: one output column per entry of `target_names` (a regression
model is the one-output case). -/
structure Model where
  target_names : List String
  predict : DataManager → List Col

/-- Modelled from the spec: `ModelType._filter_outputs` (not under `src/`)
keeps exactly the prediction columns whose output name is among the
requested filter classes ("requested output-filter labels"). -/
def filter_outputs (predictions : List Col) (names : List String)
    (filter_classes : List String) : List Col :=
  ((names.zip predictions).filter fun p => decide (p.1 ∈ filter_classes)).map Prod.snd

/-- Python truthiness of the `filter_classes` argument: `None` and the
empty list are both falsy (`if filter_classes:`). -/
def truthy (fc : Option (List String)) : Bool :=
  match fc with
  | none => false
  | some l => !l.isEmpty

/-- The local `predict_wrapper` of `feature_importance` (lines 69-73):
filter the prediction columns when `filter_classes` is truthy, otherwise
pass the predictions through unchanged. -/
def predict_wrapper (m : Model) (fc : Option (List String))
    (predictions : List Col) : List Col :=
  if truthy fc then filter_outputs predictions m.target_names (fc.getD [])
  else predictions

/-- Number of rows of a column-major prediction matrix
(`original_predictions.shape[0]`). -/
def numRows (predictions : List Col) : Nat :=
  match predictions with
  | [] => 0
  | c :: _ => c.length

/-- Arithmetic mean of a list (`np.mean`); the mean of the empty list is
taken to be `0` (division by the zero length). -/
def meanQ (xs : List ℚ) : ℚ :=
  xs.sum / (xs.length : ℚ)

/-- Population variance of a list: the mean of the squared deviations from
the mean (the quantity under the square root in `np.std`). -/
def varQ (xs : List ℚ) : ℚ :=
  meanQ (xs.map fun x => (x - meanQ xs) ^ 2)

/-- Population standard deviation (`np.std(xs)`), with the square root of
the external numeric library passed in as `sqrtFn`. -/
def stdQ (sqrtFn : ℚ → ℚ) (xs : List ℚ) : ℚ :=
  sqrtFn (varQ xs)

/-- Entrywise difference of two column-major matrices
(`new_predictions - original_predictions`). -/
def matSub (a b : List Col) : List Col :=
  List.zipWith (fun c d => List.zipWith (fun x y => x - y) c d) a b

/-- Modelled from the spec: `self.data_set.generate_column_sample(feature_id,
n_samples=n, method='random-choice')` (not under `src/`): given a feature
id and a sample count, produce a random resample of that column.  The
random generator is external state, so the sampler is a parameter of the
embedding; a fixed random seed determines the sampler. -/
abbrev Sampler := String → Nat → Col

/-- The mutable state threaded through the per-feature loop:
`copy` is `copy_of_data_set`, `imps` is the `importances` dict in insertion
order, and `calls` records each dataset passed to `modelinstance.predict`
inside the loop, in order. -/
structure LoopState where
  copy : DataManager
  imps : List (String × ℚ)
  calls : List DataManager
deriving DecidableEq

/-- The per-feature loop of `feature_importance` (lines 86-103): perturb
the current column of the working copy with a fresh sample, predict on the
perturbed copy, score the column by the mean over output dimensions of the
per-dimension standard deviation of the prediction delta, then reset the
column from the original dataset. -/
def featureLoop (sqrtFn : ℚ → ℚ) (data : DataManager) (m : Model)
    (fc : Option (List String)) (sampler : Sampler) (n : Nat)
    (orig : List Col) : List String → LoopState → LoopState
  | [], st => st
  | f :: fs, st =>
    let samples := sampler f n
    let copy1 := st.copy.setCol f samples
    let new_predictions := predict_wrapper m fc (m.predict copy1)
    let changes := matSub new_predictions orig
    let importance := meanQ (changes.map (stdQ sqrtFn))
    let copy2 := copy1.setCol f (data.getCol f)
    featureLoop sqrtFn data m fc sampler n orig fs
      ⟨copy2, st.imps ++ [(f, importance)], st.calls ++ [copy1]⟩

/-- The assertion message of lines 62-68 (Python's adjacent string literals
concatenate without separators). -/
def assertionMessage (names : List String) (fc : List String) : String :=
  "members of filter classes must bemembers of modelinstance.classes.Expected members of: "
    ++ toString names ++ "\ngot: " ++ toString fc

/-- The original (possibly filtered) predictions of line 76. -/
def original_preds (data : DataManager) (m : Model)
    (fc : Option (List String)) : List Col :=
  predict_wrapper m fc (m.predict data)

/-- Run the per-feature loop from the freshly copied dataset, starting with
empty importances and an empty call trace. -/
def loop_result (sqrtFn : ℚ → ℚ) (data : DataManager) (m : Model)
    (fc : Option (List String)) (sampler : Sampler) : LoopState :=
  let orig := original_preds data m fc
  featureLoop sqrtFn data m fc sampler (numRows orig) orig data.feature_ids
    ⟨data, [], []⟩

/-- The un-normalized importances, keyed by feature id in iteration order
(the `importances` dict right after the loop, before sorting and
normalization). -/
def raw_importances (sqrtFn : ℚ → ℚ) (data : DataManager) (m : Model)
    (fc : Option (List String)) (sampler : Sampler) : List (String × ℚ) :=
  (loop_result sqrtFn data m fc sampler).imps

/-- `pd.Series(importances).sort_values()`: sort the keyed scores by value,
ascending. -/
def sortByValue (l : List (String × ℚ)) : List (String × ℚ) :=
  l.mergeSort fun p q => decide (p.2 ≤ q.2)

/-- `FeatureImportance.feature_importance` (lines 28-107), instrumented to
also return the trace of datasets handed to `modelinstance.predict` (the
call of line 76 on the original data first, then one call per feature from
inside the loop).  A failed assertion is an `Except.error`. -/
def feature_importance_run (sqrtFn : ℚ → ℚ) (data : DataManager) (m : Model)
    (fc : Option (List String)) (sampler : Sampler) :
    Except String (List (String × ℚ) × List DataManager) :=
  if truthy fc && !((fc.getD []).all fun i => decide (i ∈ m.target_names)) then
    .error (assertionMessage m.target_names (fc.getD []))
  else
    let st := loop_result sqrtFn data m fc sampler
    let sorted := sortByValue st.imps
    let total := (sorted.map Prod.snd).sum
    .ok (sorted.map fun p => (p.1, p.2 / total), data :: st.calls)

/-- The value returned by `feature_importance`: the sorted, normalized
importance series (or the assertion error). -/
def feature_importance (sqrtFn : ℚ → ℚ) (data : DataManager) (m : Model)
    (fc : Option (List String)) (sampler : Sampler) :
    Except String (List (String × ℚ)) :=
  (feature_importance_run sqrtFn data m fc sampler).map Prod.fst

/-- All datasets passed to `modelinstance.predict` during a call
(empty when the call fails at the assertion, which precedes every predict
call). -/
def predict_call_trace (sqrtFn : ℚ → ℚ) (data : DataManager) (m : Model)
    (fc : Option (List String)) (sampler : Sampler) : List DataManager :=
  match feature_importance_run sqrtFn data m fc sampler with
  | .error _ => []
  | .ok (_, t) => t

/-- The datasets passed to `modelinstance.predict` from inside the
per-feature loop (line 95): the trace without the initial call of line 76. -/
def loop_predict_calls (sqrtFn : ℚ → ℚ) (data : DataManager) (m : Model)
    (fc : Option (List String)) (sampler : Sampler) : List DataManager :=
  (predict_call_trace sqrtFn data m fc sampler).tail

/-- The dataset predicted on in the iteration for feature `f`: the original
data with column `f` replaced by the fresh sample. -/
def perturbed_table (data : DataManager) (sampler : Sampler) (n : Nat)
    (f : String) : DataManager :=
  data.setCol f (sampler f n)

/-- The un-normalized score of one feature column, spelled exactly as the
spec describes it: the mean over output dimensions of the per-dimension
standard deviation (over rows) of the difference between the predictions
on the resampled data and the predictions on the original data. -/
def column_importance (sqrtFn : ℚ → ℚ) (data : DataManager) (m : Model)
    (fc : Option (List String)) (sampler : Sampler) (n : Nat) (f : String) : ℚ :=
  meanQ ((matSub (predict_wrapper m fc (m.predict (perturbed_table data sampler n f)))
      (original_preds data m fc)).map (stdQ sqrtFn))

/-- The object state of a `FeatureImportance` interpreter: the dataset it
was loaded with. -/
structure FeatureImportanceObj where
  data_set : DataManager
deriving DecidableEq

/-- The method `feature_importance` as a state transformer on the
interpreter object: it returns the importance series together with the
object state after the call. -/
def FeatureImportanceObj.feature_importance_method (self : FeatureImportanceObj)
    (sqrtFn : ℚ → ℚ) (m : Model) (fc : Option (List String)) (sampler : Sampler) :
    Except String (List (String × ℚ)) × FeatureImportanceObj :=
  (feature_importance sqrtFn self.data_set m fc sampler, self)

/-- Modelled from the spec: the outcome of `from matplotlib import pyplot`
in this environment — it succeeds, fails with `ImportError` (library
unavailable), or fails with `RuntimeError` (no display). -/
inductive PyplotStatus where
  | available
  | importError
  | runtimeError
deriving DecidableEq

/-- The failures `plot_feature_importance` can surface: the two
plotting-specific errors of lines 149-151, or a propagated assertion error
from the importance computation. -/
inductive PlotErr where
  | matplotlibUnavailable (msg : String)
  | matplotlibDisplay (msg : String)
  | assertionFailed (msg : String)
deriving DecidableEq

/-- `FeatureImportance.plot_feature_importance` (lines 110-163): translate
the import outcome into the two dedicated errors, otherwise compute the
importances and plot them; the chart content is the series re-sorted by
value (`importances.sort_values().plot(kind='barh')`). -/
def plot_feature_importance (pyplot : PyplotStatus) (sqrtFn : ℚ → ℚ)
    (data : DataManager) (m : Model) (fc : Option (List String))
    (sampler : Sampler) : Except PlotErr (List (String × ℚ)) :=
  match pyplot with
  | .importError =>
      .error (.matplotlibUnavailable "Matplotlib is required but unavailable on your system.")
  | .runtimeError =>
      .error (.matplotlibDisplay "Matplotlib unable to open display")
  | .available =>
      match feature_importance sqrtFn data m fc sampler with
      | .error e => .error (.assertionFailed e)
      | .ok imps => .ok (sortByValue imps)

/-- Concrete single-column dataset with two rows, used by witnesses. -/
def wData : DataManager := ⟨[("a", [0, 2])]⟩

/-- Model that returns the single column unchanged, used by witnesses. -/
def wModel : Model := ⟨["y"], fun d => [d.getCol "a"]⟩

/-- Two-output model on the same column, used by the filter-classes witness. -/
def w2Model : Model := ⟨["y1", "y2"], fun d => [d.getCol "a", d.getCol "a"]⟩

/-- Deterministic resample that swaps the two rows, used by witnesses. -/
def wSampler : Sampler := fun _ _ => [2, 0]

/-- Degenerate single-row dataset for the normalization counterexample. -/
def cexData : DataManager := ⟨[("a", [0])]⟩

/-- Constant model: its prediction ignores the dataset entirely. -/
def cexModel : Model := ⟨["y"], fun _ => [[0]]⟩

/-- Degenerate resample returning the column unchanged. -/
def cexSampler : Sampler := fun _ _ => [0]

/-! ### Column assignment algebra -/

theorem setCol_setCol_same (d : DataManager) (f : String) (v w : Col) :
    (d.setCol f v).setCol f w = d.setCol f w := by
  simp only [DataManager.setCol, List.map_map]
  congr 1
  apply List.map_congr_left
  intro p _
  by_cases h : p.1 = f <;> simp [Function.comp, h]

theorem find?_key_eq_of_nodup {l : List (String × Col)} {p : String × Col}
    (hnd : (l.map Prod.fst).Nodup) (hp : p ∈ l) :
    l.find? (fun q => decide (q.1 = p.1)) = some p := by
  induction l with
  | nil => cases hp
  | cons q t ih =>
    obtain ⟨h1, h2⟩ := List.nodup_cons.mp (List.map_cons Prod.fst q t ▸ hnd)
    rcases List.mem_cons.mp hp with hq | ht
    · subst hq
      simp [List.find?_cons_of_pos]
    · by_cases hqp : q.1 = p.1
      · exact absurd (hqp ▸ List.mem_map_of_mem Prod.fst ht) h1
      · rw [List.find?_cons_of_neg _ (by simpa using hqp)]
        exact ih h2 ht

theorem getCol_of_mem {d : DataManager} {p : String × Col}
    (hnd : (d.cols.map Prod.fst).Nodup) (hp : p ∈ d.cols) :
    d.getCol p.1 = p.2 := by
  simp [DataManager.getCol, find?_key_eq_of_nodup hnd hp]

theorem setCol_getCol_self (d : DataManager) (f : String)
    (hnd : (d.cols.map Prod.fst).Nodup) :
    d.setCol f (d.getCol f) = d := by
  rcases d with ⟨l⟩
  simp only [DataManager.setCol, DataManager.mk.injEq]
  have hcongr : ∀ p ∈ l, (if p.1 = f then (f, DataManager.getCol ⟨l⟩ f) else p) = id p := by
    intro p hp
    by_cases h : p.1 = f
    · subst h
      rw [if_pos rfl, getCol_of_mem hnd hp]
      rfl
    · simp [h]
  rw [List.map_congr_left hcongr, List.map_id]

theorem getCol_setCol_ne (d : DataManager) (f g : String) (v : Col) (h : g ≠ f) :
    (d.setCol f v).getCol g = d.getCol g := by
  simp only [DataManager.getCol, DataManager.setCol]
  congr 2
  induction d.cols with
  | nil => rfl
  | cons p t ih =>
    by_cases hp : p.1 = f
    · have h1 : ¬ ((f, v).1 = g) := fun hc => h (hc ▸ rfl)
      have h2 : ¬ (p.1 = g) := fun hc => h (hc ▸ hp.symm ▸ rfl)
      simp only [List.map_cons, hp, if_pos]
      rw [List.find?_cons_of_neg _ (by simpa using h1),
        List.find?_cons_of_neg _ (by simpa using h2), ih]
    · simp only [List.map_cons, hp, if_neg, ite_false]
      by_cases hg : p.1 = g
      · rw [List.find?_cons_of_pos _ (by simpa using hg),
          List.find?_cons_of_pos _ (by simpa using hg)]
      · rw [List.find?_cons_of_neg _ (by simpa using hg),
          List.find?_cons_of_neg _ (by simpa using hg), ih]

theorem setCol_keys (d : DataManager) (f : String) (v : Col) :
    (d.setCol f v).cols.map Prod.fst = d.cols.map Prod.fst := by
  simp only [DataManager.setCol, List.map_map]
  apply List.map_congr_left
  intro p _
  by_cases h : p.1 = f <;> simp [Function.comp, h]

/-! ### Characterization of the per-feature loop -/

theorem featureLoop_eq (sqrtFn : ℚ → ℚ) (data : DataManager) (m : Model)
    (fc : Option (List String)) (sampler : Sampler) (n : Nat) (orig : List Col)
    (hnd : (data.cols.map Prod.fst).Nodup) :
    ∀ (fs : List String) (imps : List (String × ℚ)) (calls : List DataManager),
      featureLoop sqrtFn data m fc sampler n orig fs ⟨data, imps, calls⟩ =
        ⟨data,
         imps ++ fs.map fun f =>
           (f, meanQ ((matSub (predict_wrapper m fc (m.predict (data.setCol f (sampler f n)))) orig).map (stdQ sqrtFn))),
         calls ++ fs.map fun f => data.setCol f (sampler f n)⟩ := by
  intro fs
  induction fs with
  | nil =>
    intro imps calls
    simp [featureLoop]
  | cons f t ih =>
    intro imps calls
    have hcopy : (data.setCol f (sampler f n)).setCol f (data.getCol f) = data := by
      rw [setCol_setCol_same, setCol_getCol_self data f hnd]
    simp only [featureLoop]
    rw [hcopy, ih]
    simp

theorem featureLoop_imps_map_fst (sqrtFn : ℚ → ℚ) (data : DataManager) (m : Model)
    (fc : Option (List String)) (sampler : Sampler) (n : Nat) (orig : List Col) :
    ∀ (fs : List String) (st : LoopState),
      ((featureLoop sqrtFn data m fc sampler n orig fs st).imps).map Prod.fst
        = st.imps.map Prod.fst ++ fs := by
  intro fs
  induction fs with
  | nil =>
    intro st
    simp [featureLoop]
  | cons f t ih =>
    intro st
    simp only [featureLoop]
    rw [ih]
    simp

/-! ### Basic arithmetic facts about the statistics -/

theorem meanQ_nonneg {l : List ℚ} (h : ∀ x ∈ l, 0 ≤ x) : 0 ≤ meanQ l := by
  unfold meanQ
  exact div_nonneg (List.sum_nonneg h) (by positivity)

theorem varQ_nonneg (xs : List ℚ) : 0 ≤ varQ xs := by
  apply meanQ_nonneg
  intro x hx
  simp only [List.mem_map] at hx
  obtain ⟨y, _, rfl⟩ := hx
  positivity

theorem stdQ_nonneg {sqrtFn : ℚ → ℚ} (hsq : ∀ x : ℚ, 0 ≤ x → 0 ≤ sqrtFn x)
    (xs : List ℚ) : 0 ≤ stdQ sqrtFn xs :=
  hsq _ (varQ_nonneg xs)

theorem sum_map_div (l : List ℚ) (t : ℚ) :
    (l.map fun x => x / t).sum = l.sum / t := by
  induction l with
  | nil => simp
  | cons x xs ih => simp [ih, add_div]

theorem zipWith_sub_self (c : Col) :
    List.zipWith (fun x y => x - y) c c = c.map fun _ => (0 : ℚ) := by
  induction c with
  | nil => rfl
  | cons x xs ih => simp [ih]

theorem matSub_self (a : List Col) :
    matSub a a = a.map fun c => c.map fun _ => (0 : ℚ) := by
  unfold matSub
  induction a with
  | nil => rfl
  | cons c t ih => simp [zipWith_sub_self, ih]

theorem sum_map_zero {α : Type} (l : List α) :
    (l.map fun _ => (0 : ℚ)).sum = 0 := by
  induction l with
  | nil => rfl
  | cons x xs ih => simp [ih]

theorem meanQ_map_zero {α : Type} (l : List α) :
    meanQ (l.map fun _ => (0 : ℚ)) = 0 := by
  unfold meanQ
  rw [sum_map_zero]
  simp

theorem varQ_map_zero {α : Type} (l : List α) :
    varQ (l.map fun _ => (0 : ℚ)) = 0 := by
  unfold varQ
  rw [meanQ_map_zero, List.map_map]
  have : ((fun x => (x - 0) ^ 2) ∘ fun _ => (0 : ℚ)) = fun _ : α => (0 : ℚ) := by
    funext y
    simp
  rw [this, meanQ_map_zero]

theorem stdQ_map_zero {α : Type} {sqrtFn : ℚ → ℚ} (hsq0 : sqrtFn 0 = 0) (l : List α) :
    stdQ sqrtFn (l.map fun _ => (0 : ℚ)) = 0 := by
  unfold stdQ
  rw [varQ_map_zero, hsq0]

theorem featureLoop_imps_nonneg (sqrtFn : ℚ → ℚ) (data : DataManager) (m : Model)
    (fc : Option (List String)) (sampler : Sampler) (n : Nat) (orig : List Col)
    (hsq : ∀ x : ℚ, 0 ≤ x → 0 ≤ sqrtFn x) :
    ∀ (fs : List String) (st : LoopState),
      (∀ p ∈ st.imps, 0 ≤ p.2) →
      ∀ p ∈ (featureLoop sqrtFn data m fc sampler n orig fs st).imps, 0 ≤ p.2 := by
  intro fs
  induction fs with
  | nil =>
    intro st h
    simpa [featureLoop] using h
  | cons f t ih =>
    intro st h
    simp only [featureLoop]
    apply ih
    intro p hp
    rcases List.mem_append.mp hp with hold | hnew
    · exact h p hold
    · rcases List.mem_singleton.mp hnew with rfl
      apply meanQ_nonneg
      intro x hx
      simp only [List.mem_map] at hx
      obtain ⟨c, _, rfl⟩ := hx
      exact stdQ_nonneg hsq c

theorem featureLoop_imps_zero (sqrtFn : ℚ → ℚ) (data : DataManager) (m : Model)
    (fc : Option (List String)) (sampler : Sampler) (n : Nat)
    (hsq0 : sqrtFn 0 = 0)
    (hins : ∀ d₁ d₂ : DataManager, m.predict d₁ = m.predict d₂) :
    ∀ (fs : List String) (st : LoopState),
      (∀ p ∈ st.imps, p.2 = 0) →
      ∀ p ∈ (featureLoop sqrtFn data m fc sampler n
              (predict_wrapper m fc (m.predict data)) fs st).imps, p.2 = 0 := by
  intro fs
  induction fs with
  | nil =>
    intro st h
    simpa [featureLoop] using h
  | cons f t ih =>
    intro st h
    simp only [featureLoop]
    apply ih
    intro p hp
    rcases List.mem_append.mp hp with hold | hnew
    · exact h p hold
    · rcases List.mem_singleton.mp hnew with rfl
      rw [hins (st.copy.setCol f (sampler f n)) data, matSub_self, List.map_map]
      have : ((stdQ sqrtFn) ∘ fun c : Col => c.map fun _ => (0 : ℚ))
          = fun _ : Col => (0 : ℚ) := by
        funext c
        exact stdQ_map_zero hsq0 c
      rw [this, meanQ_map_zero]

/-! ### Unfolding equations for the full pipeline -/

theorem loop_result_eq (sqrtFn : ℚ → ℚ) (data : DataManager) (m : Model)
    (fc : Option (List String)) (sampler : Sampler)
    (hnd : (data.cols.map Prod.fst).Nodup) :
    loop_result sqrtFn data m fc sampler =
      ⟨data,
       data.feature_ids.map fun f =>
         (f, column_importance sqrtFn data m fc sampler
               (numRows (original_preds data m fc)) f),
       data.feature_ids.map fun f =>
         perturbed_table data sampler (numRows (original_preds data m fc)) f⟩ := by
  unfold loop_result
  rw [featureLoop_eq sqrtFn data m fc sampler _ _ hnd]
  simp [column_importance, perturbed_table, original_preds]

theorem raw_importances_eq (sqrtFn : ℚ → ℚ) (data : DataManager) (m : Model)
    (fc : Option (List String)) (sampler : Sampler)
    (hnd : (data.cols.map Prod.fst).Nodup) :
    raw_importances sqrtFn data m fc sampler =
      data.feature_ids.map fun f =>
        (f, column_importance sqrtFn data m fc sampler
              (numRows (original_preds data m fc)) f) := by
  unfold raw_importances
  rw [loop_result_eq sqrtFn data m fc sampler hnd]

theorem run_eq_error (sqrtFn : ℚ → ℚ) (data : DataManager) (m : Model)
    (fc : Option (List String)) (sampler : Sampler)
    (h : (truthy fc && !((fc.getD []).all fun i => decide (i ∈ m.target_names))) = true) :
    feature_importance_run sqrtFn data m fc sampler
      = .error (assertionMessage m.target_names (fc.getD [])) := by
  unfold feature_importance_run
  rw [if_pos h]

theorem run_eq_ok (sqrtFn : ℚ → ℚ) (data : DataManager) (m : Model)
    (fc : Option (List String)) (sampler : Sampler)
    (h : ¬ (truthy fc && !((fc.getD []).all fun i => decide (i ∈ m.target_names))) = true) :
    feature_importance_run sqrtFn data m fc sampler
      = .ok ((sortByValue (raw_importances sqrtFn data m fc sampler)).map
               (fun p => (p.1,
                 p.2 / ((sortByValue (raw_importances sqrtFn data m fc sampler)).map Prod.snd).sum)),
             data :: (loop_result sqrtFn data m fc sampler).calls) := by
  unfold feature_importance_run
  rw [if_neg h]
  rfl

/-! ### Claim theorems -/

/-- C2: for every feature column, the un-normalized importance score computed
by `feature_importance` equals the mean over output dimensions of the
per-dimension standard deviation (taken over rows) of the difference between
the predictions on the resampled data and the predictions on the original
data (`column_importance` spells out exactly that formula). -/
theorem raw_importance_is_mean_std_of_delta (sqrtFn : ℚ → ℚ) (data : DataManager)
    (m : Model) (fc : Option (List String)) (sampler : Sampler)
    (hnd : (data.cols.map Prod.fst).Nodup) :
    raw_importances sqrtFn data m fc sampler =
      data.feature_ids.map fun f =>
        (f, column_importance sqrtFn data m fc sampler
              (numRows (original_preds data m fc)) f) :=
  raw_importances_eq sqrtFn data m fc sampler hnd

/-- C3: every dataset handed to the model's predict call from inside the
per-feature loop is the original dataset with exactly the column of the
current iteration replaced by its resample; all other columns hold their
original values (the reset at the end of each iteration maintains this
invariant). -/
theorem loop_predict_calls_perturb_one_column (sqrtFn : ℚ → ℚ) (data : DataManager)
    (m : Model) (fc : Option (List String)) (sampler : Sampler)
    (hnd : (data.cols.map Prod.fst).Nodup) :
    ∀ t ∈ loop_predict_calls sqrtFn data m fc sampler,
      ∃ f ∈ data.feature_ids,
        t = perturbed_table data sampler (numRows (original_preds data m fc)) f ∧
        ∀ g, g ≠ f → t.getCol g = data.getCol g := by
  intro t ht
  unfold loop_predict_calls predict_call_trace at ht
  by_cases hc : (truthy fc && !((fc.getD []).all fun i => decide (i ∈ m.target_names))) = true
  · rw [run_eq_error sqrtFn data m fc sampler hc] at ht
    simp at ht
  · rw [run_eq_ok sqrtFn data m fc sampler hc] at ht
    simp only [List.tail_cons] at ht
    rw [loop_result_eq sqrtFn data m fc sampler hnd] at ht
    simp only [List.mem_map] at ht
    obtain ⟨f, hf, rfl⟩ := ht
    refine ⟨f, hf, rfl, fun g hg => ?_⟩
    unfold perturbed_table
    exact getCol_setCol_ne data f g _ hg

/-- C7: `feature_importance` is deterministic given a fixed random seed: the
column sampler is the only source of randomness, and two runs on the same
dataset and model whose samplers agree on every request return identical
importance mappings. -/
theorem feature_importance_deterministic (sqrtFn : ℚ → ℚ) (data : DataManager)
    (m : Model) (fc : Option (List String)) (s₁ s₂ : Sampler)
    (h : ∀ f n, s₁ f n = s₂ f n) :
    feature_importance sqrtFn data m fc s₁ = feature_importance sqrtFn data m fc s₂ := by
  have hs : s₁ = s₂ := funext fun f => funext fun n => h f n
  rw [hs]

/-- C9: `feature_importance` never mutates the caller-visible dataset: the
method leaves the interpreter state unchanged, and the perturbations are
applied only to the working copy, which the per-iteration resets restore, so
it even ends the loop holding exactly the original columns. -/
theorem feature_importance_method_frame (self : FeatureImportanceObj)
    (sqrtFn : ℚ → ℚ) (m : Model) (fc : Option (List String)) (sampler : Sampler) :
    (self.feature_importance_method sqrtFn m fc sampler).2 = self
    ∧ ((self.data_set.cols.map Prod.fst).Nodup →
        (loop_result sqrtFn self.data_set m fc sampler).copy = self.data_set) := by
  refine ⟨rfl, fun hnd => ?_⟩
  rw [loop_result_eq sqrtFn self.data_set m fc sampler hnd]

/-- C4: when `filter_classes` is truthy but not a subset of the model's
`target_names`, the call fails immediately with the assertion error — for
every dataset and every predict function alike, with an empty predict-call
trace, so the failure precedes any prediction or data handling; when it is a
subset (or `filter_classes` is absent), no such error is raised and the call
returns a result. -/
theorem feature_importance_assert_validation (sqrtFn : ℚ → ℚ) (sampler : Sampler)
    (fc : Option (List String)) (names : List String)
    (pfn : DataManager → List Col) (data : DataManager) :
    (truthy fc = true → ¬ (∀ i ∈ fc.getD [], i ∈ names) →
      feature_importance sqrtFn data ⟨names, pfn⟩ fc sampler
          = .error (assertionMessage names (fc.getD []))
        ∧ predict_call_trace sqrtFn data ⟨names, pfn⟩ fc sampler = [])
    ∧ ((truthy fc = true → ∀ i ∈ fc.getD [], i ∈ names) →
        (feature_importance sqrtFn data ⟨names, pfn⟩ fc sampler).isOk = true) := by
  constructor
  · intro ht hsub
    have hall : ((fc.getD []).all fun i => decide (i ∈ names)) = false := by
      rw [Bool.eq_false_iff]
      intro hcontra
      exact hsub (by simpa [List.all_eq_true] using hcontra)
    have hc : (truthy fc
        && !((fc.getD []).all fun i => decide (i ∈ (Model.mk names pfn).target_names))) = true := by
      simp [ht, hall]
    constructor
    · unfold feature_importance
      rw [run_eq_error sqrtFn data ⟨names, pfn⟩ fc sampler hc]
      rfl
    · unfold predict_call_trace
      rw [run_eq_error sqrtFn data ⟨names, pfn⟩ fc sampler hc]
  · intro hsub
    have hc : ¬ (truthy fc
        && !((fc.getD []).all fun i => decide (i ∈ (Model.mk names pfn).target_names))) = true := by
      cases htr : truthy fc with
      | false => simp [htr]
      | true =>
        have hall : ((fc.getD []).all fun i => decide (i ∈ names)) = true := by
          simp only [List.all_eq_true, decide_eq_true_eq]
          exact hsub htr
        simp [htr, hall]
    unfold feature_importance
    rw [run_eq_ok sqrtFn data ⟨names, pfn⟩ fc sampler hc]
    rfl

/-- C6: for a model whose prediction function is insensitive to every input
column (the predictions do not depend on the dataset at all), any importance
mapping returned by `feature_importance` has all its scores equal to one
another. -/
theorem insensitive_model_importances_equal (sqrtFn : ℚ → ℚ) (data : DataManager)
    (m : Model) (fc : Option (List String)) (sampler : Sampler)
    (r : List (String × ℚ))
    (hsq0 : sqrtFn 0 = 0)
    (hins : ∀ d₁ d₂ : DataManager, m.predict d₁ = m.predict d₂)
    (hr : feature_importance sqrtFn data m fc sampler = .ok r) :
    ∀ p ∈ r, ∀ q ∈ r, p.2 = q.2 := by
  by_cases hc : (truthy fc && !((fc.getD []).all fun i => decide (i ∈ m.target_names))) = true
  · unfold feature_importance at hr
    rw [run_eq_error sqrtFn data m fc sampler hc] at hr
    cases hr
  · unfold feature_importance at hr
    rw [run_eq_ok sqrtFn data m fc sampler hc] at hr
    have hraw : ∀ p ∈ raw_importances sqrtFn data m fc sampler, p.2 = 0 := by
      apply featureLoop_imps_zero sqrtFn data m fc sampler
        (numRows (original_preds data m fc)) hsq0 hins data.feature_ids ⟨data, [], []⟩
      intro p hp
      cases hp
    have hsorted : ∀ p ∈ sortByValue (raw_importances sqrtFn data m fc sampler), p.2 = 0 := by
      intro p hp
      exact hraw p ((List.mergeSort_perm _ _).mem_iff.mp hp)
    have hall : ∀ p ∈ r, p.2 = 0 := by
      have hr' : (sortByValue (raw_importances sqrtFn data m fc sampler)).map
          (fun p => (p.1,
            p.2 / ((sortByValue (raw_importances sqrtFn data m fc sampler)).map Prod.snd).sum)) = r := by
        injection hr with h1
      intro p hp
      rw [← hr'] at hp
      simp only [List.mem_map] at hp
      obtain ⟨q, hq, rfl⟩ := hp
      rw [hsorted q hq]
      simp
    intro p hp q hq
    rw [hall p hp, hall q hq]

theorem map_snd_div_sum (l : List (String × ℚ)) (t : ℚ) :
    ((l.map fun p => (p.1, p.2 / t)).map Prod.snd).sum = (l.map Prod.snd).sum / t := by
  rw [List.map_map]
  have h1 : (Prod.snd ∘ fun p : String × ℚ => (p.1, p.2 / t))
      = fun p : String × ℚ => p.2 / t := rfl
  rw [h1]
  have h2 : (l.map fun p : String × ℚ => p.2 / t)
      = (l.map Prod.snd).map fun x => x / t := by
    rw [List.map_map]
    rfl
  rw [h2, sum_map_div]

/-- C1 (amended): whenever `feature_importance` returns and the sum of the
un-normalized column scores is nonzero, the returned normalized importance
scores sum to 1.  (When every un-normalized score is zero the final division
is by zero and the returned scores do not sum to 1; see the counterexample.) -/
theorem feature_importance_sums_to_one (sqrtFn : ℚ → ℚ) (data : DataManager)
    (m : Model) (fc : Option (List String)) (sampler : Sampler)
    (r : List (String × ℚ))
    (hr : feature_importance sqrtFn data m fc sampler = .ok r)
    (htot : ((raw_importances sqrtFn data m fc sampler).map Prod.snd).sum ≠ 0) :
    (r.map Prod.snd).sum = 1 := by
  by_cases hc : (truthy fc && !((fc.getD []).all fun i => decide (i ∈ m.target_names))) = true
  · unfold feature_importance at hr
    rw [run_eq_error sqrtFn data m fc sampler hc] at hr
    cases hr
  · unfold feature_importance at hr
    rw [run_eq_ok sqrtFn data m fc sampler hc] at hr
    injection hr with h1
    have hperm : List.Perm (sortByValue (raw_importances sqrtFn data m fc sampler))
        (raw_importances sqrtFn data m fc sampler) := List.mergeSort_perm _ _
    have hsum : ((sortByValue (raw_importances sqrtFn data m fc sampler)).map Prod.snd).sum
        = ((raw_importances sqrtFn data m fc sampler).map Prod.snd).sum :=
      (hperm.map Prod.snd).sum_eq
    rw [← h1, map_snd_div_sum, hsum, div_self htot]

/-- C1 counterexample: on a constant model every un-normalized score is 0,
the normalizing division is by 0, and the returned importance mapping sums
to 0, not 1 — refuting the claim that the scores always sum to 1. -/
theorem feature_importance_sum_not_one_cex :
    feature_importance (fun x => x) cexData cexModel none cexSampler = .ok [("a", 0)]
    ∧ ¬ ((([("a", (0 : ℚ))]).map Prod.snd).sum = 1) := by
  constructor
  · norm_num [feature_importance, feature_importance_run, loop_result, original_preds,
      featureLoop, predict_wrapper, truthy, numRows, meanQ, varQ, stdQ, matSub,
      sortByValue, DataManager.feature_ids, DataManager.getCol, DataManager.setCol,
      cexData, cexModel, cexSampler, Except.map, List.find?]
  · norm_num

/-- C1 witness: at the concrete two-row input the un-normalized total is 4,
and the theorem yields that the returned scores sum to 1. -/
theorem feature_importance_sums_to_one_witness :
    feature_importance (fun x => x) wData wModel none wSampler = .ok [("a", 1)]
    ∧ ((raw_importances (fun x => x) wData wModel none wSampler).map Prod.snd).sum ≠ 0
    ∧ (([("a", (1 : ℚ))]).map Prod.snd).sum = 1 := by
  have hok : feature_importance (fun x => x) wData wModel none wSampler = .ok [("a", 1)] := by
    norm_num [feature_importance, feature_importance_run, loop_result, original_preds,
      featureLoop, predict_wrapper, truthy, numRows, meanQ, varQ, stdQ, matSub,
      sortByValue, DataManager.feature_ids, DataManager.getCol, DataManager.setCol,
      wData, wModel, wSampler, Except.map, List.find?]
  have htot : ((raw_importances (fun x => x) wData wModel none wSampler).map Prod.snd).sum ≠ 0 := by
    norm_num [raw_importances, loop_result, original_preds,
      featureLoop, predict_wrapper, truthy, numRows, meanQ, varQ, stdQ, matSub,
      DataManager.feature_ids, DataManager.getCol, DataManager.setCol,
      wData, wModel, wSampler, List.find?]
  refine ⟨hok, htot, ?_⟩
  have h := feature_importance_sums_to_one (fun x => x) wData wModel none wSampler
    [("a", 1)] hok htot
  simp only at h
  exact h

theorem div_le_div_nonneg_den {a b t : ℚ} (h : a ≤ b) (ht : 0 ≤ t) :
    a / t ≤ b / t := by
  rcases eq_or_lt_of_le ht with h0 | h0
  · rw [← h0]
    simp
  · exact (div_le_div_iff_of_pos_right h0).mpr h

theorem raw_importances_nonneg (sqrtFn : ℚ → ℚ) (data : DataManager) (m : Model)
    (fc : Option (List String)) (sampler : Sampler)
    (hsq : ∀ x : ℚ, 0 ≤ x → 0 ≤ sqrtFn x) :
    ∀ p ∈ raw_importances sqrtFn data m fc sampler, 0 ≤ p.2 := by
  apply featureLoop_imps_nonneg sqrtFn data m fc sampler
    (numRows (original_preds data m fc)) (original_preds data m fc) hsq
    data.feature_ids ⟨data, [], []⟩
  intro p hp
  cases hp

/-- C8: the series returned by `feature_importance` is sorted in ascending
order of importance score — the keyed scores are sorted by value before
normalization, and dividing by the (nonnegative) total preserves that
order. -/
theorem feature_importance_sorted_ascending (sqrtFn : ℚ → ℚ) (data : DataManager)
    (m : Model) (fc : Option (List String)) (sampler : Sampler)
    (r : List (String × ℚ))
    (hsq : ∀ x : ℚ, 0 ≤ x → 0 ≤ sqrtFn x)
    (hr : feature_importance sqrtFn data m fc sampler = .ok r) :
    ((sortByValue (raw_importances sqrtFn data m fc sampler)).map Prod.snd).Pairwise (· ≤ ·)
    ∧ (r.map Prod.snd).Pairwise (· ≤ ·) := by
  have hsorted : (sortByValue (raw_importances sqrtFn data m fc sampler)).Pairwise
      (fun p q : String × ℚ => p.2 ≤ q.2) := by
    have h := @List.sorted_mergeSort _
      (fun p q : String × ℚ => decide (p.2 ≤ q.2))
      (fun a b c hab hbc => by
        simp only [decide_eq_true_eq] at hab hbc ⊢
        exact le_trans hab hbc)
      (fun a b => by
        simp only [Bool.or_eq_true, decide_eq_true_eq]
        exact le_total a.2 b.2)
      (raw_importances sqrtFn data m fc sampler)
    exact h.imp fun hab => by simpa using hab
  have hfst : ((sortByValue (raw_importances sqrtFn data m fc sampler)).map Prod.snd).Pairwise
      (· ≤ ·) :=
    List.Pairwise.map Prod.snd (fun a b hab => hab) hsorted
  refine ⟨hfst, ?_⟩
  by_cases hc : (truthy fc && !((fc.getD []).all fun i => decide (i ∈ m.target_names))) = true
  · unfold feature_importance at hr
    rw [run_eq_error sqrtFn data m fc sampler hc] at hr
    cases hr
  · unfold feature_importance at hr
    rw [run_eq_ok sqrtFn data m fc sampler hc] at hr
    injection hr with h1
    have hmem : ∀ x ∈ (sortByValue (raw_importances sqrtFn data m fc sampler)).map Prod.snd,
        (0 : ℚ) ≤ x := by
      intro x hx
      obtain ⟨p, hp, rfl⟩ := List.mem_map.mp hx
      exact raw_importances_nonneg sqrtFn data m fc sampler hsq p
        ((List.mergeSort_perm _ _).mem_iff.mp hp)
    have htot : (0 : ℚ)
        ≤ ((sortByValue (raw_importances sqrtFn data m fc sampler)).map Prod.snd).sum :=
      List.sum_nonneg hmem
    rw [← h1, List.map_map]
    exact List.Pairwise.map _ (fun a b hab => div_le_div_nonneg_den hab htot) hsorted

theorem truthy_some_of_ne_nil {l : List String} (hl : l ≠ []) :
    truthy (some l) = true := by
  cases l with
  | nil => exact absurd rfl hl
  | cons a t => rfl

theorem predict_wrapper_some (m : Model) (l : List String) (hl : l ≠ [])
    (x : List Col) :
    predict_wrapper m (some l) x = filter_outputs x m.target_names l := by
  unfold predict_wrapper
  rw [truthy_some_of_ne_nil hl]
  rfl

theorem numRows_filter_outputs (preds : List Col) (names l : List String)
    (hl : l ≠ []) (hsub : ∀ i ∈ l, i ∈ names)
    (hlen : preds.length = names.length)
    (hrows : ∀ c ∈ preds, c.length = numRows preds) :
    numRows (filter_outputs preds names l) = numRows preds := by
  obtain ⟨i, hi⟩ : ∃ i, i ∈ l := by
    cases l with
    | nil => exact absurd rfl hl
    | cons a t => exact ⟨a, List.mem_cons_self a t⟩
  have hin : i ∈ names := hsub i hi
  have hzipfst : (names.zip preds).map Prod.fst = names :=
    List.map_fst_zip names preds (le_of_eq hlen.symm)
  rw [← hzipfst] at hin
  obtain ⟨p, hp, hpi⟩ := List.mem_map.mp hin
  have hfil : (names.zip preds).filter (fun q => decide (q.1 ∈ l)) ≠ [] := by
    intro hnil
    rw [List.filter_eq_nil_iff] at hnil
    apply hnil p hp
    simp only [decide_eq_true_eq, hpi]
    exact hi
  cases hq : (names.zip preds).filter (fun q => decide (q.1 ∈ l)) with
  | nil => exact absurd hq hfil
  | cons q t =>
    have hqmem : q ∈ names.zip preds :=
      List.mem_of_mem_filter (by rw [hq]; exact List.mem_cons_self q t)
    obtain ⟨qn, qc⟩ := q
    have hqsnd : qc ∈ preds := (List.of_mem_zip hqmem).2
    unfold filter_outputs
    rw [hq]
    simp only [List.map_cons]
    exact hrows qc hqsnd

/-- C5: `filter_classes` restricts only which output dimensions are
measured: the set of feature columns scored is unchanged, the perturbed
datasets handed to the model's predict call are identical to those of an
unfiltered run, and each column's score is the same formula applied to the
original and perturbed predictions with both filtered to the requested
output dimensions before differencing. -/
theorem filter_classes_restricts_outputs_only (sqrtFn : ℚ → ℚ) (data : DataManager)
    (m : Model) (sampler : Sampler) (l : List String)
    (hnd : (data.cols.map Prod.fst).Nodup)
    (hl : l ≠ [])
    (hsub : ∀ i ∈ l, i ∈ m.target_names)
    (hlen : (m.predict data).length = m.target_names.length)
    (hrows : ∀ c ∈ m.predict data, c.length = numRows (m.predict data)) :
    (raw_importances sqrtFn data m (some l) sampler).map Prod.fst
        = (raw_importances sqrtFn data m none sampler).map Prod.fst
    ∧ loop_predict_calls sqrtFn data m (some l) sampler
        = loop_predict_calls sqrtFn data m none sampler
    ∧ raw_importances sqrtFn data m (some l) sampler
        = data.feature_ids.map fun f =>
            (f, meanQ ((matSub
                (filter_outputs
                  (m.predict (perturbed_table data sampler (numRows (m.predict data)) f))
                  m.target_names l)
                (filter_outputs (m.predict data) m.target_names l)).map (stdQ sqrtFn))) := by
  have hn : numRows (original_preds data m (some l)) = numRows (m.predict data) := by
    unfold original_preds
    rw [predict_wrapper_some m l hl]
    exact numRows_filter_outputs _ _ _ hl hsub hlen hrows
  have hcsome : ¬ (truthy (some l)
      && !(((some l : Option (List String)).getD []).all
            fun i => decide (i ∈ m.target_names))) = true := by
    have hall : (l.all fun i => decide (i ∈ m.target_names)) = true := by
      simp only [List.all_eq_true, decide_eq_true_eq]
      exact hsub
    simp [hall]
  have hcnone : ¬ (truthy none
      && !(((none : Option (List String)).getD []).all
            fun i => decide (i ∈ m.target_names))) = true := by
    simp [truthy]
  refine ⟨?_, ?_, ?_⟩
  · rw [raw_importances_eq sqrtFn data m (some l) sampler hnd,
      raw_importances_eq sqrtFn data m none sampler hnd]
    simp [List.map_map, Function.comp]
  · unfold loop_predict_calls predict_call_trace
    rw [run_eq_ok sqrtFn data m (some l) sampler hcsome,
      run_eq_ok sqrtFn data m none sampler hcnone]
    simp only [List.tail_cons]
    rw [loop_result_eq sqrtFn data m (some l) sampler hnd,
      loop_result_eq sqrtFn data m none sampler hnd]
    simp only
    rw [hn]
    rfl
  · rw [raw_importances_eq sqrtFn data m (some l) sampler hnd]
    apply List.map_congr_left
    intro f _
    unfold column_importance
    rw [hn]
    unfold original_preds perturbed_table
    rw [predict_wrapper_some m l hl, predict_wrapper_some m l hl]

/-- C10: `plot_feature_importance` raises `MatplotlibUnavailableError`
exactly when the plotting-library import fails with `ImportError` and
`MatplotlibDisplayError` exactly when it fails with `RuntimeError`, in both
cases independently of the model, the data and the filter — so before any
importance computation; when the import succeeds, the only possible failure
is a propagated assertion error of the importance computation itself. -/
theorem plot_feature_importance_error_routing (sqrtFn : ℚ → ℚ) (data : DataManager)
    (m : Model) (fc : Option (List String)) (sampler : Sampler) :
    plot_feature_importance .importError sqrtFn data m fc sampler
        = .error (.matplotlibUnavailable "Matplotlib is required but unavailable on your system.")
    ∧ plot_feature_importance .runtimeError sqrtFn data m fc sampler
        = .error (.matplotlibDisplay "Matplotlib unable to open display")
    ∧ (∀ e, plot_feature_importance .available sqrtFn data m fc sampler = .error e →
        ∃ msg, e = .assertionFailed msg
          ∧ feature_importance sqrtFn data m fc sampler = .error msg) := by
  refine ⟨rfl, rfl, ?_⟩
  intro e he
  unfold plot_feature_importance at he
  cases hfi : feature_importance sqrtFn data m fc sampler with
  | error msg =>
    rw [hfi] at he
    simp only [Except.error.injEq] at he
    exact ⟨msg, he.symm, rfl⟩
  | ok imps =>
    rw [hfi] at he
    cases he

/-! ### Witnesses: each applies its claim theorem at a concrete input -/

/-- Witness for C2 at the concrete two-row dataset. -/
theorem raw_importance_is_mean_std_of_delta_witness :
    (wData.cols.map Prod.fst).Nodup
    ∧ raw_importances (fun x => x) wData wModel none wSampler
        = wData.feature_ids.map fun f =>
            (f, column_importance (fun x => x) wData wModel none wSampler
                  (numRows (original_preds wData wModel none)) f) :=
  ⟨by decide,
   raw_importance_is_mean_std_of_delta (fun x => x) wData wModel none wSampler (by decide)⟩

/-- Witness for C3: the one dataset predicted on inside the loop carries the
resampled column. -/
theorem loop_predict_calls_perturb_one_column_witness :
    (wData.cols.map Prod.fst).Nodup
    ∧ (DataManager.mk [("a", [2, 0])])
        ∈ loop_predict_calls (fun x => x) wData wModel none wSampler
    ∧ ∃ f ∈ wData.feature_ids,
        DataManager.mk [("a", [2, 0])]
            = perturbed_table wData wSampler (numRows (original_preds wData wModel none)) f
          ∧ ∀ g, g ≠ f →
              (DataManager.mk [("a", [2, 0])]).getCol g = wData.getCol g := by
  have hnd : (wData.cols.map Prod.fst).Nodup := by decide
  have hmem : (DataManager.mk [("a", [2, 0])])
      ∈ loop_predict_calls (fun x => x) wData wModel none wSampler := by
    have hcalls : loop_predict_calls (fun x => x) wData wModel none wSampler
        = [⟨[("a", [2, 0])]⟩] := by
      norm_num [loop_predict_calls, predict_call_trace, feature_importance_run, loop_result,
        original_preds, featureLoop, predict_wrapper, truthy, numRows, meanQ, varQ, stdQ,
        matSub, sortByValue, DataManager.feature_ids, DataManager.getCol, DataManager.setCol,
        wData, wModel, wSampler, List.find?]
    rw [hcalls]
    exact List.mem_singleton.mpr rfl
  exact ⟨hnd, hmem,
    loop_predict_calls_perturb_one_column (fun x => x) wData wModel none wSampler hnd _ hmem⟩

/-- Witness for C4: a non-subset filter fails with the assertion message and
an empty predict trace; an absent filter returns a result. -/
theorem feature_importance_assert_validation_witness :
    feature_importance (fun x => x) wData ⟨["y"], wModel.predict⟩ (some ["z"]) wSampler
        = .error (assertionMessage ["y"] ["z"])
    ∧ predict_call_trace (fun x => x) wData ⟨["y"], wModel.predict⟩ (some ["z"]) wSampler = []
    ∧ (feature_importance (fun x => x) wData ⟨["y"], wModel.predict⟩ none wSampler).isOk
        = true := by
  obtain ⟨h1, h2⟩ := (feature_importance_assert_validation (fun x => x) wSampler (some ["z"])
    ["y"] wModel.predict wData).1 rfl (by decide)
  have h3 := (feature_importance_assert_validation (fun x => x) wSampler none
    ["y"] wModel.predict wData).2 (fun h => by cases h)
  exact ⟨h1, h2, h3⟩

/-- Witness for C5 at the two-output model, filtering to the second output. -/
theorem filter_classes_restricts_outputs_only_witness :
    (wData.cols.map Prod.fst).Nodup
    ∧ (["y2"] : List String) ≠ []
    ∧ (∀ i ∈ (["y2"] : List String), i ∈ w2Model.target_names)
    ∧ (w2Model.predict wData).length = w2Model.target_names.length
    ∧ (∀ c ∈ w2Model.predict wData, c.length = numRows (w2Model.predict wData))
    ∧ ((raw_importances (fun x => x) wData w2Model (some ["y2"]) wSampler).map Prod.fst
          = (raw_importances (fun x => x) wData w2Model none wSampler).map Prod.fst
      ∧ loop_predict_calls (fun x => x) wData w2Model (some ["y2"]) wSampler
          = loop_predict_calls (fun x => x) wData w2Model none wSampler
      ∧ raw_importances (fun x => x) wData w2Model (some ["y2"]) wSampler
          = wData.feature_ids.map fun f =>
              (f, meanQ ((matSub
                  (filter_outputs
                    (w2Model.predict
                      (perturbed_table wData wSampler (numRows (w2Model.predict wData)) f))
                    w2Model.target_names ["y2"])
                  (filter_outputs (w2Model.predict wData) w2Model.target_names ["y2"])).map
                    (stdQ fun x => x)))) := by
  have hnd : (wData.cols.map Prod.fst).Nodup := by decide
  have hl : (["y2"] : List String) ≠ [] := by decide
  have hsub : ∀ i ∈ (["y2"] : List String), i ∈ w2Model.target_names := by decide
  have hlen : (w2Model.predict wData).length = w2Model.target_names.length := by
    norm_num [w2Model, wData, DataManager.getCol, List.find?]
  have hrows : ∀ c ∈ w2Model.predict wData, c.length = numRows (w2Model.predict wData) := by
    intro c hc
    simp [w2Model, wData, DataManager.getCol, List.find?, numRows] at hc ⊢
    rcases hc with rfl | rfl
    all_goals rfl
  exact ⟨hnd, hl, hsub, hlen, hrows,
    filter_classes_restricts_outputs_only (fun x => x) wData w2Model wSampler ["y2"]
      hnd hl hsub hlen hrows⟩

/-- Witness for C6 at the constant model: the returned scores are pairwise
equal. -/
theorem insensitive_model_importances_equal_witness :
    ((fun x : ℚ => x) 0 = 0)
    ∧ (∀ d₁ d₂ : DataManager, cexModel.predict d₁ = cexModel.predict d₂)
    ∧ feature_importance (fun x => x) cexData cexModel none cexSampler = .ok [("a", 0)]
    ∧ ∀ p ∈ [(("a" : String), (0 : ℚ))], ∀ q ∈ [(("a" : String), (0 : ℚ))],
        p.2 = q.2 := by
  have hok : feature_importance (fun x => x) cexData cexModel none cexSampler
      = .ok [("a", 0)] := by
    norm_num [feature_importance, feature_importance_run, loop_result, original_preds,
      featureLoop, predict_wrapper, truthy, numRows, meanQ, varQ, stdQ, matSub,
      sortByValue, DataManager.feature_ids, DataManager.getCol, DataManager.setCol,
      cexData, cexModel, cexSampler, Except.map, List.find?]
  exact ⟨rfl, fun _ _ => rfl, hok,
    insensitive_model_importances_equal (fun x => x) cexData cexModel none cexSampler
      [("a", 0)] rfl (fun _ _ => rfl) hok⟩

/-- Witness for C7: two runs with the same sampler agree. -/
theorem feature_importance_deterministic_witness :
    (∀ f n, wSampler f n = wSampler f n)
    ∧ feature_importance (fun x => x) wData wModel none wSampler
        = feature_importance (fun x => x) wData wModel none wSampler :=
  ⟨fun _ _ => rfl,
   feature_importance_deterministic (fun x => x) wData wModel none wSampler wSampler
     (fun _ _ => rfl)⟩

/-- Witness for C8: the returned singleton series is sorted. -/
theorem feature_importance_sorted_ascending_witness :
    (∀ x : ℚ, 0 ≤ x → 0 ≤ (fun y : ℚ => y) x)
    ∧ ((sortByValue (raw_importances (fun y : ℚ => y) wData wModel none wSampler)).map
          Prod.snd).Pairwise (· ≤ ·)
    ∧ (([(("a" : String), (1 : ℚ))]).map Prod.snd).Pairwise (· ≤ ·) := by
  have hok : feature_importance (fun y : ℚ => y) wData wModel none wSampler
      = .ok [("a", 1)] := by
    norm_num [feature_importance, feature_importance_run, loop_result, original_preds,
      featureLoop, predict_wrapper, truthy, numRows, meanQ, varQ, stdQ, matSub,
      sortByValue, DataManager.feature_ids, DataManager.getCol, DataManager.setCol,
      wData, wModel, wSampler, Except.map, List.find?]
  have h := feature_importance_sorted_ascending (fun y : ℚ => y) wData wModel none wSampler
    [("a", 1)] (fun x hx => hx) hok
  exact ⟨fun x hx => hx, h.1, h.2⟩

/-- Witness for C9: the method leaves the state untouched and the working
copy ends equal to the original dataset. -/
theorem feature_importance_method_frame_witness :
    ((FeatureImportanceObj.mk wData).feature_importance_method
        (fun x => x) wModel none wSampler).2 = FeatureImportanceObj.mk wData
    ∧ (wData.cols.map Prod.fst).Nodup
    ∧ (loop_result (fun x => x) wData wModel none wSampler).copy = wData := by
  have h := feature_importance_method_frame (FeatureImportanceObj.mk wData)
    (fun x => x) wModel none wSampler
  exact ⟨h.1, by decide, h.2 (by decide)⟩

/-- Witness for C10: the two import failures produce the dedicated errors,
and with the import available a failing assertion surfaces as the propagated
assertion error. -/
theorem plot_feature_importance_error_routing_witness :
    plot_feature_importance .importError (fun x => x) wData wModel (some ["z"]) wSampler
        = .error (.matplotlibUnavailable "Matplotlib is required but unavailable on your system.")
    ∧ plot_feature_importance .runtimeError (fun x => x) wData wModel (some ["z"]) wSampler
        = .error (.matplotlibDisplay "Matplotlib unable to open display")
    ∧ ∃ msg, (PlotErr.assertionFailed (assertionMessage ["y"] ["z"]) : PlotErr)
          = .assertionFailed msg
        ∧ feature_importance (fun x => x) wData wModel (some ["z"]) wSampler
          = .error msg := by
  have h := plot_feature_importance_error_routing (fun x => x) wData wModel
    (some ["z"]) wSampler
  refine ⟨h.1, h.2.1, ?_⟩
  exact h.2.2 (PlotErr.assertionFailed (assertionMessage ["y"] ["z"])) (by rfl)

end Lynxes
